import Mathlib

/-!
Verification development for the mcp-x11-controller repository.

The repository contains two parallel implementations of the input-synthesis
and session layer: the package-level one (package x11: Client, Type,
typeChar, KeyPress, KeyCombo, keyNameToKeysym, keysymToKeycode, MouseMove,
MouseClick, StartApp/StartAppWithEnv, ConnectWithOptions) and the one in
main.go (X11Controller: TypeText, typeChar, typeCharWithModifier,
MoveMouse, Click, ClickAt, captureScreen, StartProgram, checkConnection).
Both are embedded here as pure functions over explicit state:

* machine characters and keysyms are natural numbers (Unicode code points
  or X11 keysym codes);
* the keyboard mapping reply (min/max keycode, keysyms-per-keycode and the
  flat keysym table) is a structure, and the keysym-table lookup helpers
  of the go-x11-client library are function-valued parameters;
* every XTEST / core-protocol request that the code emits becomes one
  element of an event list, so ordering properties are statements about
  those lists;
* fallible operations return an explicit error value alongside the events
  already emitted before the failure, mirroring the way the Go code sends
  unchecked requests before an error return.
-/

/-- One low-level request emitted to the display server: key and button
press/release via XTEST FakeInput, pointer motion (XTEST) or warp (core
protocol), a GetImage round trip, or spawning a child process. -/
inductive Ev
  | keyPress (kc : Nat)
  | keyRelease (kc : Nat)
  | buttonPress (b : Nat)
  | buttonRelease (b : Nat)
  | motion (x y : Int)
  | warp (x y : Int)
  | getImage
  | spawn (prog : List Char)
  deriving DecidableEq, Repr

/-- Errors produced by the package-level (package x11) implementation,
one constructor per fmt.Errorf site relevant to the claims. -/
inductive X11Err
  | noKeycodeForKeysym (ks : Nat)
  | unknownKeyName (name : List Char)
  | unknownModifier (name : List Char)
  | invalidKeyCombo (combo : List Char)
  | appNotFound (app : List Char)
  deriving DecidableEq, Repr

/-- The keyboard-mapping reply used by keysymToKeycode: GetSetup's
min/max keycode together with GetKeyboardMapping's keysyms-per-keycode
count and flat keysym list. -/
structure Mapping where
  minKeycode : Nat
  maxKeycode : Nat
  perKeycode : Nat
  keysyms : List Nat
  deriving Repr

/-- Extract the value of an Except, with a default for the error case;
models a Go call whose error result is discarded with a blank identifier
(the value returned alongside a non-nil error is the zero value). -/
def okD (r : Except X11Err Nat) (d : Nat) : Nat :=
  match r with
  | .ok v => v
  | .error _ => d

/-- The inner column test of keysymToKeycode: whether the symbol table of
keycode kc contains the target keysym at some column below
keysyms-per-keycode (the Go code guards the flat index against the table
length before comparing). -/
def hasKeysym (M : Mapping) (kc target : Nat) : Bool :=
  (List.range M.perKeycode).any fun col =>
    M.keysyms.get? ((kc - M.minKeycode) * M.perKeycode + col) == some target

/-- keysymToKeycode (package x11): linear scan of the keycode range
minKeycode..maxKeycode, returning the first keycode whose symbol table
contains the target keysym, and an error when none does. -/
def keysymToKeycode (M : Mapping) (target : Nat) : Except X11Err Nat :=
  match (List.range' M.minKeycode (M.maxKeycode + 1 - M.minKeycode)).find?
      (fun kc => hasKeysym M kc target) with
  | some kc => .ok kc
  | none => .error (.noKeycodeForKeysym target)

/-- keyNameToKeysym (package x11): the built-in special-key name table.
The final two lowercase entries "tab" and "delete" are the only
lowercase multi-character names it accepts. -/
def keyNameToKeysym (name : List Char) : Except X11Err Nat :=
  if name = "Return".data ∨ name = "Enter".data then .ok 0xff0d
  else if name = "Tab".data then .ok 0xff09
  else if name = "Escape".data ∨ name = "Esc".data then .ok 0xff1b
  else if name = "BackSpace".data ∨ name = "Backspace".data then .ok 0xff08
  else if name = "Delete".data ∨ name = "Del".data then .ok 0xffff
  else if name = "Home".data then .ok 0xff50
  else if name = "End".data then .ok 0xff57
  else if name = "Page_Up".data ∨ name = "PageUp".data ∨ name = "PgUp".data then .ok 0xff55
  else if name = "Page_Down".data ∨ name = "PageDown".data ∨ name = "PgDn".data then .ok 0xff56
  else if name = "Left".data then .ok 0xff51
  else if name = "Right".data then .ok 0xff53
  else if name = "Up".data then .ok 0xff52
  else if name = "Down".data then .ok 0xff54
  else if name = "tab".data then .ok 0xff09
  else if name = "delete".data then .ok 0xffff
  else .error (.unknownKeyName name)

/-- Go's unicode.IsUpper restricted to the Latin-1 range (uppercase ASCII
letters plus U+00C0..U+00DE without the multiplication sign); the claims
only quantify over ASCII characters, for which this agrees with Go's
property tables. -/
def goIsUpper (ch : Nat) : Bool :=
  (65 ≤ ch && ch ≤ 90) || (192 ≤ ch && ch ≤ 222 && ch != 215)

/-- Go's unicode.ToLower on the same Latin-1 range: uppercase letters map
32 code points up, everything else is unchanged. -/
def goToLower (ch : Nat) : Nat :=
  if goIsUpper ch then ch + 32 else ch

/-- The keysym/shift resolution switch of typeChar (package x11): the ten
shifted digit-row symbols map to the digit keysym with shift required,
uppercase letters map to their lowercase keysym with shift required, and
every other character maps to itself with no shift. -/
def x11ResolveChar (ch : Nat) : Nat × Bool :=
  if ch = 33 then (49, true)
  else if ch = 64 then (50, true)
  else if ch = 35 then (51, true)
  else if ch = 36 then (52, true)
  else if ch = 37 then (53, true)
  else if ch = 94 then (54, true)
  else if ch = 38 then (55, true)
  else if ch = 42 then (56, true)
  else if ch = 40 then (57, true)
  else if ch = 41 then (48, true)
  else if goIsUpper ch then (goToLower ch, true)
  else (ch, false)

/-- The Shift keycode used by typeChar (package x11): keysymToKeycode on
XK_Shift_L with the error discarded, so 0 on failure. -/
def x11ShiftKc (M : Mapping) : Nat :=
  okD (keysymToKeycode M 0xffe1) 0

/-- typeChar (package x11): resolve the character, look up its keycode
(propagating a resolution failure as the call's error), and emit the key
press/release, bracketed by Shift press/release when the resolution
flagged shift. -/
def x11TypeChar (M : Mapping) (ch : Nat) : List Ev × Option X11Err :=
  let r := x11ResolveChar ch
  match keysymToKeycode M r.1 with
  | .error e => ([], some e)
  | .ok kc =>
    ((if r.2 then [Ev.keyPress (x11ShiftKc M)] else []) ++
      [Ev.keyPress kc, Ev.keyRelease kc] ++
      (if r.2 then [Ev.keyRelease (x11ShiftKc M)] else []), none)

/-- KeyPress (package x11): resolve the special-key name and emit
press/release of the resulting keycode. -/
def x11KeyPress (M : Mapping) (key : List Char) : List Ev × Option X11Err :=
  match keyNameToKeysym key with
  | .error e => ([], some e)
  | .ok ks =>
    match keysymToKeycode M ks with
    | .error e => ([], some e)
    | .ok kc => ([Ev.keyPress kc, Ev.keyRelease kc], none)

/-- Type (package x11): iterate the text character by character, mapping a
newline to the Enter special key and every other character through
typeChar; the first error aborts the loop and is returned, together with
the events emitted up to that point. -/
def x11Type (M : Mapping) : List Nat → List Ev × Option X11Err
  | [] => ([], none)
  | ch :: rest =>
    let r := if ch = 10 then x11KeyPress M "Enter".data else x11TypeChar M ch
    match r.2 with
    | some e => (r.1, some e)
    | none =>
      let r2 := x11Type M rest
      (r.1 ++ r2.1, r2.2)

/-- strings.Split on the separator "+" as Go defines it: splitting the
empty string yields one empty token, and n separators yield n+1 tokens. -/
def splitOnPlus : List Char → List (List Char)
  | [] => [[]]
  | c :: rest =>
    match splitOnPlus rest with
    | [] => [[]]
    | t :: ts => if c.toNat = 43 then [] :: t :: ts else (c :: t) :: ts

/-- The modifier-name table of KeyCombo (package x11): ctrl, shift, alt
and the three synonyms super/win/cmd, each to its left-hand keysym. -/
def modKeysym (p : List Char) : Option Nat :=
  if p = "ctrl".data then some 0xffe3
  else if p = "shift".data then some 0xffe1
  else if p = "alt".data then some 0xffe9
  else if p = "super".data ∨ p = "win".data ∨ p = "cmd".data then some 0xffeb
  else none

/-- The modifier-separation loop of KeyCombo: classify every token before
the last as a modifier keysym, failing at the first unknown name (this
loop runs before any event is emitted). -/
def classifyMods : List (List Char) → Except X11Err (List Nat)
  | [] => .ok []
  | p :: ps =>
    match modKeysym p with
    | some s => (classifyMods ps).map (s :: ·)
    | none => .error (.unknownModifier p)

/-- The modifier press loop of KeyCombo: resolve and press each modifier
keysym in order; a resolution failure stops the loop, returning the
presses already emitted alongside the error. -/
def pressModifiers (M : Mapping) : List Nat → List Ev × Except X11Err (List Nat)
  | [] => ([], .ok [])
  | s :: ss =>
    match keysymToKeycode M s with
    | .error e => ([], .error e)
    | .ok kc =>
      let r := pressModifiers M ss
      (Ev.keyPress kc :: r.1, r.2.map (kc :: ·))

/-- The modifier release loop of KeyCombo: called on the reversed keysym
list, resolving each again with the error discarded (keycode 0 then). -/
def releaseMods (M : Mapping) : List Nat → List Ev
  | [] => []
  | s :: ss => Ev.keyRelease (okD (keysymToKeycode M s) 0) :: releaseMods M ss

/-- The target-key resolution of KeyCombo: a single-character token is its
own keysym (the Go code reads the byte; for the ASCII tokens considered
here the byte and the character coincide), anything else goes through the
special-key name table. -/
def mainKeysymOf (t : List Char) : Except X11Err Nat :=
  if t.length = 1 then .ok ((t.headD (Char.ofNat 0)).toNat)
  else keyNameToKeysym t

/-- The body of KeyCombo (package x11) after tokenization: classify the
leading tokens as modifiers, press them in order, press and release the
target key, then release the modifiers in reverse order. Failures after
the press loop return the modifier presses already emitted together with
the error. -/
def keyComboParsed (M : Mapping) (parts : List (List Char)) :
    List Ev × Option X11Err :=
  match classifyMods parts.dropLast with
  | .error e => ([], some e)
  | .ok syms =>
    let pr := pressModifiers M syms
    match pr.2 with
    | .error e => (pr.1, some e)
    | .ok _ =>
      match mainKeysymOf (parts.getLastD []) with
      | .error e => (pr.1, some e)
      | .ok msym =>
        match keysymToKeycode M msym with
        | .error e => (pr.1, some e)
        | .ok mkc =>
          (pr.1 ++ [Ev.keyPress mkc, Ev.keyRelease mkc] ++
            releaseMods M syms.reverse, none)

/-- KeyCombo (package x11): lowercase the spec, split on "+", require at
least two tokens, and run the press/release body on the token list. -/
def KeyCombo (M : Mapping) (combo : List Char) : List Ev × Option X11Err :=
  let parts := splitOnPlus (combo.map Char.toLower)
  if parts.length < 2 then ([], some (.invalidKeyCombo combo))
  else keyComboParsed M parts

/-- The connection state of a package-level Client: whether Close has been
called. The Client struct keeps no liveness flag, so no operation reads
this field; it exists only so that post-Close behavior can be stated. -/
structure X11Client where
  closed : Bool
  deriving DecidableEq, Repr

/-- Close (package x11): closes the connection handle (and stops a managed
Xvfb); nothing else in the Client is updated. -/
def x11Close (_ : X11Client) : X11Client :=
  ⟨true⟩

/-- MouseMove (package x11): one unchecked XTEST motion event; the Client
state is not consulted, and the unchecked request means the call reports
success whatever the connection state. -/
def x11MouseMove (_ : X11Client) (x y : Int) : List Ev × Option X11Err :=
  ([Ev.motion x y], none)

/-- MouseClick (package x11): unchecked XTEST button press then release;
as with MouseMove, no state is consulted and no error is reported. -/
def x11MouseClick (_ : X11Client) (b : Nat) : List Ev × Option X11Err :=
  ([Ev.buttonPress b, Ev.buttonRelease b], none)

/-- setEnv (package x11): replace the first entry of the environment slice
whose text is strictly longer than "KEY=" and starts with it, or append a
new "KEY=value" entry when none matches. -/
def setEnv (env : List (List Char)) (key value : List Char) : List (List Char) :=
  let pre := key ++ "=".data
  let rec go : List (List Char) → Option (List (List Char))
    | [] => none
    | e :: es =>
      if pre.length < e.length ∧ e.take pre.length = pre then
        some ((pre ++ value) :: es)
      else
        (go es).map (e :: ·)
  match go env with
  | some env2 => env2
  | none => env ++ [pre ++ value]

/-- StartAppWithEnv (package x11): resolve the executable on the search
path (failing with application-not-found before anything is spawned),
force DISPLAY to the session's display, merge the caller-supplied
overrides, and spawn; the spawned child's pid is the result. The search
path and the pid the OS would assign are parameters of the model. -/
def StartAppWithEnv (lookPath : List Char → Option (List Char))
    (envBase : List (List Char)) (display : List Char) (pid : Nat)
    (app : List Char) (args : List (List Char))
    (env : List (List Char × List Char)) :
    List Ev × Except X11Err Nat :=
  match lookPath app with
  | none => ([], .error (.appNotFound app))
  | some appPath =>
    let env1 := setEnv envBase "DISPLAY".data display
    let _ := env.foldl (fun acc kv => setEnv acc kv.1 kv.2) env1
    let _ := args
    ([Ev.spawn appPath], .ok pid)

/-- StartApp (package x11): StartAppWithEnv with no extra environment. -/
def StartApp (lookPath : List Char → Option (List Char))
    (envBase : List (List Char)) (display : List Char) (pid : Nat)
    (app : List Char) (args : List (List Char)) :
    List Ev × Except X11Err Nat :=
  StartAppWithEnv lookPath envBase display pid app args []

/-- The filesystem facts consulted by the display scan: for a candidate
display number i, whether /tmp/.Xi-lock exists and whether
/tmp/.X11-unix/Xi exists. -/
structure DisplayFS where
  lockExists : Nat → Bool
  sockExists : Nat → Bool

/-- The display scan of ConnectWithOptions in the first x11.go variant:
walk candidates 99..199 in increasing order and pick the first whose lock
file and communication socket are both absent. -/
def findAvailableDisplay (fs : DisplayFS) : Option Nat :=
  (List.range' 99 101).find? fun i => !fs.lockExists i && !fs.sockExists i

/-- The display scan of ConnectWithOptions in the second x11.go variant:
walk candidates 99..199 and pick the first whose lock file is absent and
for which a probe launch of the display server starts; the communication
socket is not consulted. -/
def findAvailableDisplayProbe (fs : DisplayFS) (probeStartOk : Nat → Bool) :
    Option Nat :=
  (List.range' 99 101).find? fun i => !fs.lockExists i && probeStartOk i

/-- Provisioning errors of ConnectWithOptions, one per fmt.Errorf site on
the display-selection path. -/
inductive ProvisionErr
  | xvfbNotFound
  | noFreeDisplay
  | noDisplaySpecified
  deriving DecidableEq, Repr

/-- The outcome of display selection: a freshly provisioned display number
(the process owns the started server) or an externally supplied display
string (not owned). -/
inductive AcquiredDisplay
  | provisioned (n : Nat)
  | external (d : List Char)
  deriving DecidableEq, Repr

/-- The display-selection prefix of ConnectWithOptions (first variant):
prefer the option, then the DISPLAY environment variable; when both are
empty and Xvfb startup is enabled, require the Xvfb binary and scan for a
free candidate, failing when the whole range is occupied. -/
def acquireDisplay (optsDisplay envDisplay : List Char) (startXvfb : Bool)
    (xvfbOnPath : Bool) (fs : DisplayFS) :
    Except ProvisionErr AcquiredDisplay :=
  let display := if optsDisplay = [] then envDisplay else optsDisplay
  if display = [] ∧ startXvfb then
    if xvfbOnPath = false then .error .xvfbNotFound
    else
      match findAvailableDisplay fs with
      | none => .error .noFreeDisplay
      | some i => .ok (.provisioned i)
  else if display = [] then .error .noDisplaySpecified
  else .ok (.external display)

/-- The display-selection prefix of ConnectWithOptions (second variant):
identical except that the scan checks the lock file and a probe launch
instead of the socket. -/
def acquireDisplayProbe (optsDisplay envDisplay : List Char) (startXvfb : Bool)
    (xvfbOnPath : Bool) (fs : DisplayFS) (probeStartOk : Nat → Bool) :
    Except ProvisionErr AcquiredDisplay :=
  let display := if optsDisplay = [] then envDisplay else optsDisplay
  if display = [] ∧ startXvfb then
    if xvfbOnPath = false then .error .xvfbNotFound
    else
      match findAvailableDisplayProbe fs probeStartOk with
      | none => .error .noFreeDisplay
      | some i => .ok (.provisioned i)
  else if display = [] then .error .noDisplaySpecified
  else .ok (.external display)

/-- Errors produced by the main.go X11Controller, one constructor per
fmt.Errorf site relevant to the claims. -/
inductive GoErr
  | connectionLost
  | noKeycodeForModifier
  | noKeycodeForChar (ch : Nat)
  | programNotFound (prog : List Char)
  | unsupportedDepth (d : Nat)
  deriving DecidableEq, Repr

/-- The three modifier names the inline scanner of TypeText (main.go) can
detect in the text. -/
inductive GoMod
  | ctrl
  | alt
  | super
  deriving DecidableEq, Repr

/-- The keysym-table helpers of the go-x11-client keysyms utility used by
main.go: GetKeycodes returns every keycode bound to a keysym, and
StringToKeycodes is the fallback lookup from the character's string form
(empty list standing for a failed lookup). Both depend only on the live
keyboard layout, so they are function-valued parameters of the model. -/
structure GoLayout where
  getKeycodes : Nat → List Nat
  stringToKeycodes : Nat → List Nat

/-- keysyms.ConvertCase as used by typeChar (main.go): for the uppercase
ASCII keysyms on which the call's result is consumed, the lowercase form
is 32 code points up. -/
def convertCaseLower (ks : Nat) : Nat :=
  if 65 ≤ ks ∧ ks ≤ 90 then ks + 32 else ks

/-- The keysym/shift switch of typeChar (main.go): newline, tab and
backspace map to their special keysyms; uppercase ASCII letters map to
their lowercase keysym with shift; the 21 US-layout shift-row symbols map
to their unshifted base keysym with shift; everything else maps to itself
with no shift. -/
def mainResolveChar (ch : Nat) : Nat × Bool :=
  if ch = 10 then (0xff0d, false)
  else if ch = 9 then (0xff09, false)
  else if ch = 8 then (0xff08, false)
  else if 65 ≤ ch ∧ ch ≤ 90 then (convertCaseLower ch, true)
  else if ch = 33 then (49, true)
  else if ch = 64 then (50, true)
  else if ch = 35 then (51, true)
  else if ch = 36 then (52, true)
  else if ch = 37 then (53, true)
  else if ch = 94 then (54, true)
  else if ch = 38 then (55, true)
  else if ch = 42 then (56, true)
  else if ch = 40 then (57, true)
  else if ch = 41 then (48, true)
  else if ch = 95 then (45, true)
  else if ch = 43 then (61, true)
  else if ch = 123 then (91, true)
  else if ch = 125 then (93, true)
  else if ch = 124 then (92, true)
  else if ch = 58 then (59, true)
  else if ch = 34 then (39, true)
  else if ch = 60 then (44, true)
  else if ch = 62 then (46, true)
  else if ch = 63 then (47, true)
  else if ch = 126 then (96, true)
  else (ch, false)

/-- The Shift keycode used by typeChar (main.go): the first keycode bound
to XK_Shift_L, or the hard-coded fallback 50 when the lookup is empty. -/
def mainShiftKc (L : GoLayout) : Nat :=
  (L.getKeycodes 0xffe1).headD 50

/-- typeChar (main.go): resolve the character's keysym and shift flag,
look up its keycodes with the StringToKeycodes fallback, skip the
character entirely (warning only, no events, no error) when both lookups
fail, and otherwise emit press/release of the first keycode, bracketed by
Shift press/release when flagged. -/
def mainTypeChar (L : GoLayout) (ch : Nat) : List Ev :=
  let r := mainResolveChar ch
  let kcs := L.getKeycodes r.1
  let kcs := if kcs.isEmpty then L.stringToKeycodes ch else kcs
  match kcs with
  | [] => []
  | kc :: _ =>
    (if r.2 then [Ev.keyPress (mainShiftKc L)] else []) ++
      [Ev.keyPress kc, Ev.keyRelease kc] ++
      (if r.2 then [Ev.keyRelease (mainShiftKc L)] else [])

/-- typeCharWithModifier (main.go): resolve the modifier's keysym and the
character's keysym (lowercased for Ctrl+letter), failing before any event
when either lookup is empty, and otherwise emit the nested
press-key-release sequence. -/
def typeCharWithModifier (L : GoLayout) (ch : Nat) (m : GoMod) :
    Except GoErr (List Ev) :=
  let modSym : Nat :=
    match m with
    | .ctrl => 0xffe3
    | .alt => 0xffe9
    | .super => 0xffeb
  match L.getKeycodes modSym with
  | [] => .error .noKeycodeForModifier
  | mk :: _ =>
    let isCtrl : Bool := match m with | .ctrl => true | _ => false
    let ks := if isCtrl ∧ 65 ≤ ch ∧ ch ≤ 90 then ch + 32 else ch
    match L.getKeycodes ks with
    | [] => .error (.noKeycodeForChar ch)
    | kc :: _ =>
      .ok [Ev.keyPress mk, Ev.keyPress kc, Ev.keyRelease kc, Ev.keyRelease mk]

/-- The backward modifier detection of TypeText (main.go), entered when
the byte after the current one is a plus sign: it looks for the literal
bytes Ctrl, Alt or Super immediately before position i and moves i back
over the matched name. -/
def detectModifier (text : List Nat) (i : Nat) : Option GoMod × Nat :=
  if 4 ≤ i ∧ (text.drop (i - 4)).take 4 = [67, 116, 114, 108] then
    (some .ctrl, i - 4)
  else if 3 ≤ i ∧ (text.drop (i - 3)).take 3 = [65, 108, 116] then
    (some .alt, i - 3)
  else if 5 ≤ i ∧ (text.drop (i - 5)).take 5 = [83, 117, 112, 101, 114] then
    (some .super, i - 5)
  else (none, i)

/-- The byte loop of TypeText (main.go). The index updates of the Go loop
are reproduced exactly; because the inline-modifier branch can move the
index backwards (the loop does not terminate on some inputs containing
plus signs), the recursion carries explicit fuel and answers none when
the fuel runs out before the loop does. -/
def typeTextLoop (L : GoLayout) (text : List Nat) :
    Nat → Nat → Option (List Ev × Option GoErr)
  | 0, _ => none
  | fuel + 1, i =>
    if i < text.length then
      if i + 2 < text.length ∧ text.getD (i + 1) 0 = 43 then
        match detectModifier text i with
        | (some m, i2) =>
          if i2 + 2 < text.length then
            match typeCharWithModifier L (text.getD (i2 + 2) 0) m with
            | .error e => some ([], some e)
            | .ok evs =>
              match typeTextLoop L text fuel (i2 + 3) with
              | none => none
              | some r => some (evs ++ r.1, r.2)
          else
            match typeTextLoop L text fuel (i2 + 1) with
            | none => none
            | some r => some (mainTypeChar L (text.getD i2 0) ++ r.1, r.2)
        | (none, _) =>
          match typeTextLoop L text fuel (i + 1) with
          | none => none
          | some r => some (mainTypeChar L (text.getD i 0) ++ r.1, r.2)
      else
        match typeTextLoop L text fuel (i + 1) with
        | none => none
        | some r => some (mainTypeChar L (text.getD i 0) ++ r.1, r.2)
    else
      some ([], none)

/-- TypeText's typing loop (main.go) run from the start of the text with
enough fuel for the plus-free case. -/
def mainTypeText (L : GoLayout) (text : List Nat) :
    Option (List Ev × Option GoErr) :=
  typeTextLoop L text (text.length + 1) 0

/-- The X11Controller state of main.go that the claims observe: the
connAlive liveness flag (written by Close and by the connection monitor's
error handler) and the screen geometry captured at connection time. -/
structure Ctrl where
  connAlive : Bool
  screenW : Nat
  screenH : Nat
  deriving DecidableEq, Repr

/-- Close (main.go): clears connAlive and releases the handle; the
geometry fields are untouched. -/
def ctrlClose (c : Ctrl) : Ctrl :=
  ⟨false, c.screenW, c.screenH⟩

/-- checkConnection (main.go): the guard every public operation runs
first, failing when connAlive is cleared. -/
def checkConnection (c : Ctrl) : Option GoErr :=
  if c.connAlive then none else some .connectionLost

/-- GetScreenInfo (main.go): fails fast on a dead connection, otherwise
reports the stored geometry without touching the wire. -/
def ctrlGetScreenInfo (c : Ctrl) : Except GoErr (Nat × Nat) :=
  match checkConnection c with
  | some e => .error e
  | none => .ok (c.screenW, c.screenH)

/-- MoveMouse (main.go): fails fast on a dead connection, otherwise one
checked WarpPointer request. -/
def ctrlMoveMouse (c : Ctrl) (x y : Int) : List Ev × Option GoErr :=
  match checkConnection c with
  | some e => ([], some e)
  | none => ([Ev.warp x y], none)

/-- Click (main.go): fails fast on a dead connection, otherwise button
press then release via XTEST with a delay between them. -/
def ctrlClick (c : Ctrl) (b : Nat) : List Ev × Option GoErr :=
  match checkConnection c with
  | some e => ([], some e)
  | none => ([Ev.buttonPress b, Ev.buttonRelease b], none)

/-- ClickAt (main.go): fails fast on a dead connection, otherwise MoveMouse
followed (after a settle delay) by Click, propagating the first error. -/
def ctrlClickAt (c : Ctrl) (x y : Int) (b : Nat) : List Ev × Option GoErr :=
  match checkConnection c with
  | some e => ([], some e)
  | none =>
    let r1 := ctrlMoveMouse c x y
    match r1.2 with
    | some e => (r1.1, some e)
    | none =>
      let r2 := ctrlClick c b
      (r1.1 ++ r2.1, r2.2)

/-- TypeText (main.go): fails fast on a dead connection, otherwise runs
the typing loop. -/
def ctrlTypeText (c : Ctrl) (L : GoLayout) (text : List Nat) :
    Option (List Ev × Option GoErr) :=
  match checkConnection c with
  | some e => some ([], some e)
  | none => mainTypeText L text

/-- One RGBA pixel as produced by captureScreen's conversion loop. -/
abbrev Pixel := Nat × Nat × Nat × Nat

/-- The per-pixel conversion of captureScreen (main.go): read B, G, R at
the pixel's byte offset when the offset passes the bounds guard (pixels
beyond the buffer keep the zero value of the freshly allocated image);
alpha comes from the fourth byte in the 4-byte layout and is 255
otherwise. -/
def pixelAt (w bpp : Nat) (data : List Nat) (x y : Nat) : Pixel :=
  let offset := (y * w + x) * bpp
  if offset + 2 < data.length then
    (data.getD (offset + 2) 0, data.getD (offset + 1) 0, data.getD offset 0,
      if bpp = 4 ∧ offset + 3 < data.length then data.getD (offset + 3) 0
      else 255)
  else (0, 0, 0, 0)

/-- The full conversion grid of captureScreen, row-major over the screen
geometry. -/
def pixelGrid (w h bpp : Nat) (data : List Nat) : List Pixel :=
  (List.range h).flatMap fun y => (List.range w).map fun x =>
    pixelAt w bpp data x y

/-- The depth dispatch and layout choice of captureScreen (main.go):
depths other than 24 and 32 are rejected before any conversion; otherwise
the layout is 4 bytes per pixel unless the returned buffer is shorter
than width*height*4, in which case the 3-byte fallback is used. -/
def captureConvert (w h depth : Nat) (data : List Nat) :
    Except GoErr (List Pixel) :=
  if depth = 24 ∨ depth = 32 then
    let bpp := if data.length < w * h * 4 then 3 else 4
    .ok (pixelGrid w h bpp data)
  else .error (.unsupportedDepth depth)

/-- captureScreen (main.go): fails fast on a dead connection, otherwise
one GetImage round trip whose reply (depth and byte buffer, both
parameters of the model) is converted. -/
def ctrlCaptureScreen (c : Ctrl) (depth : Nat) (data : List Nat) :
    List Ev × Except GoErr (List Pixel) :=
  match checkConnection c with
  | some e => ([], .error e)
  | none => ([Ev.getImage], captureConvert c.screenW c.screenH depth data)

/-- GetScreenshotData (main.go): fails fast on a dead connection,
otherwise captures and encodes; the encoding step is outside the model,
so the capture result stands for the payload. -/
def ctrlGetScreenshotData (c : Ctrl) (depth : Nat) (data : List Nat) :
    List Ev × Except GoErr (List Pixel) :=
  match checkConnection c with
  | some e => ([], .error e)
  | none => ctrlCaptureScreen c depth data

/-- StartProgram (main.go): fails fast on a dead connection, then resolves
the program on the search path, failing with program-not-found before any
spawn when the lookup misses; on success exactly one child is spawned. -/
def ctrlStartProgram (c : Ctrl) (lookPath : List Char → Option (List Char))
    (prog : List Char) (args : List (List Char)) : List Ev × Option GoErr :=
  match checkConnection c with
  | some e => ([], some e)
  | none =>
    match lookPath prog with
    | none => ([], some (.programNotFound prog))
    | some _ =>
      let _ := args
      ([Ev.spawn prog], none)

/-- A successful find? over a contiguous range returns an element
satisfying the predicate on which every earlier candidate fails. -/
theorem find?_range'_spec {p : Nat → Bool} :
    ∀ (n s x : Nat), (List.range' s n).find? p = some x →
      p x = true ∧ s ≤ x ∧ x < s + n ∧ ∀ y, s ≤ y → y < x → p y = false := by
  intro n
  induction n with
  | zero => intro s x h; simp [List.range'] at h
  | succ n ih =>
    intro s x h
    rw [List.range'_succ s n 1] at h
    by_cases hp : p s
    · rw [List.find?_cons_of_pos _ hp] at h
      obtain rfl : s = x := by injection h
      exact ⟨hp, Nat.le_refl s, by omega, fun y h1 h2 => absurd h1 (by omega)⟩
    · rw [List.find?_cons_of_neg _ hp] at h
      obtain ⟨h1, h2, h3, h4⟩ := ih (s + 1) x h
      refine ⟨h1, by omega, by omega, fun y hy1 hy2 => ?_⟩
      rcases Nat.eq_or_lt_of_le hy1 with rfl | hy
      · exact Bool.not_eq_true _ ▸ (by simpa using hp)
      · exact h4 y hy hy2

/-- When some element of a contiguous range satisfies the predicate,
find? over the range succeeds. -/
theorem find?_range'_exists {p : Nat → Bool} {s n y : Nat}
    (h1 : s ≤ y) (h2 : y < s + n) (hp : p y = true) :
    ∃ x, (List.range' s n).find? p = some x := by
  have hmem : y ∈ List.range' s n := by
    rw [List.mem_range'_1]; exact ⟨h1, h2⟩
  have hsome : ((List.range' s n).find? p).isSome :=
    List.find?_isSome.mpr ⟨y, hmem, hp⟩
  exact Option.isSome_iff_exists.mp hsome

/-- splitOnPlus never returns the empty token list. -/
theorem splitOnPlus_ne_nil : ∀ s : List Char, splitOnPlus s ≠ [] := by
  intro s
  induction s with
  | nil => simp [splitOnPlus]
  | cons c rest ih =>
    cases h : splitOnPlus rest with
    | nil => exact absurd h ih
    | cons t ts =>
      by_cases hc : c.toNat = 43 <;> simp [splitOnPlus, h, hc]

/-- A plus-free token list splits into itself as the single token. -/
theorem splitOnPlus_no_plus :
    ∀ s : List Char, (∀ d ∈ s, d.toNat ≠ 43) → splitOnPlus s = [s] := by
  intro s
  induction s with
  | nil => intro _; rfl
  | cons c rest ih =>
    intro h
    have hc : c.toNat ≠ 43 := h c (by simp)
    have hr : splitOnPlus rest = [rest] := ih fun d hd => h d (by simp [hd])
    unfold splitOnPlus
    rw [hr]
    simp [hc]

/-- Splitting a plus-free chunk followed by a plus separator splits off
the chunk as the first token. -/
theorem splitOnPlus_append {c : Char} (hc : c.toNat = 43) :
    ∀ (a b : List Char), (∀ d ∈ a, d.toNat ≠ 43) →
      splitOnPlus (a ++ c :: b) = a :: splitOnPlus b := by
  intro a
  induction a with
  | nil =>
    intro b _
    obtain ⟨t, ts, h⟩ := List.exists_cons_of_ne_nil (splitOnPlus_ne_nil b)
    simp only [List.nil_append, splitOnPlus]
    rw [h]
    simp [hc]
  | cons d a' ih =>
    intro b h
    have hd : d.toNat ≠ 43 := h d (by simp)
    have hr := ih b fun e he => h e (by simp [he])
    have hr2 : splitOnPlus (a'.append (c :: b)) = a' :: splitOnPlus b := hr
    simp only [List.cons_append, splitOnPlus]
    rw [hr2]
    simp [hd]

/-- A successful classifyMods produces one keysym per token. -/
theorem classifyMods_length :
    ∀ (ps : List (List Char)) (syms : List Nat),
      classifyMods ps = .ok syms → syms.length = ps.length := by
  intro ps
  induction ps with
  | nil => intro syms h; cases h; rfl
  | cons p ps ih =>
    intro syms h
    unfold classifyMods at h
    cases hm : modKeysym p with
    | none => rw [hm] at h; cases h
    | some s =>
      rw [hm] at h
      cases hr : classifyMods ps with
      | error e => rw [hr] at h; cases h
      | ok tl =>
        rw [hr] at h
        cases h
        simp [ih tl hr]

/-- A successful modifier press loop emits exactly the presses of the
resolved keycodes, in order, and each keysym resolved to its keycode. -/
theorem pressModifiers_ok (M : Mapping) :
    ∀ (syms : List Nat) (kcs : List Nat),
      (pressModifiers M syms).2 = .ok kcs →
      (pressModifiers M syms).1 = kcs.map Ev.keyPress ∧
        List.Forall₂ (fun s kc => keysymToKeycode M s = .ok kc) syms kcs := by
  intro syms
  induction syms with
  | nil => intro kcs h; cases h; exact ⟨rfl, List.Forall₂.nil⟩
  | cons s ss ih =>
    intro kcs h
    simp only [pressModifiers] at h ⊢
    cases hk : keysymToKeycode M s with
    | error e => simp only [hk] at h; cases h
    | ok kc =>
      simp only [hk] at h ⊢
      cases hr : (pressModifiers M ss).2 with
      | error e => simp only [hr, Except.map] at h; cases h
      | ok tl =>
        simp only [hr, Except.map, Except.ok.injEq] at h
        subst h
        obtain ⟨h1, h2⟩ := ih tl hr
        exact ⟨by simp [h1], List.Forall₂.cons hk h2⟩

/-- The release loop over keysyms whose resolutions are known emits the
releases of the corresponding keycodes. -/
theorem releaseMods_eq (M : Mapping) :
    ∀ (syms kcs : List Nat),
      List.Forall₂ (fun s kc => keysymToKeycode M s = .ok kc) syms kcs →
      releaseMods M syms = kcs.map Ev.keyRelease := by
  intro syms kcs h
  induction h with
  | nil => rfl
  | cons hk _ ih =>
    unfold releaseMods
    rw [ih, hk]
    rfl

/-- A small fixed keyboard mapping for concrete evaluations: keycode 8
carries XK_Control_L, keycode 9 carries XK_Shift_L, keycode 10 carries
the letter t. -/
def comboMapping : Mapping :=
  ⟨8, 10, 1, [0xffe3, 0xffe1, 116]⟩

/-- A mapping whose keysym 116 appears under two keycodes (9 and 10), so
that minimality of the scan is visible. -/
def scanMapping : Mapping :=
  ⟨8, 10, 2, [0, 0, 116, 0, 116, 0]⟩

/-- C5: keysymToKeycode returns the least keycode of the scanned range
whose symbol table contains the symbol; as a pure function of a fixed
mapping, repeated calls agree, and the result is nonzero whenever the
range starts above zero; whenever some keycode in range carries the
symbol, resolution succeeds. -/
theorem keysymToKeycode_least (M : Mapping) (target : Nat) :
    (∀ kc, keysymToKeycode M target = .ok kc →
      hasKeysym M kc target = true ∧
      M.minKeycode ≤ kc ∧ kc ≤ M.maxKeycode ∧
      (∀ k, M.minKeycode ≤ k → k < kc → hasKeysym M k target = false) ∧
      (0 < M.minKeycode → kc ≠ 0) ∧
      ∀ kc2, keysymToKeycode M target = .ok kc2 → kc2 = kc) ∧
    (∀ k, M.minKeycode ≤ k → k ≤ M.maxKeycode → hasKeysym M k target = true →
      ∃ kc, keysymToKeycode M target = .ok kc) := by
  constructor
  · intro kc h
    unfold keysymToKeycode at h
    cases hf : (List.range' M.minKeycode (M.maxKeycode + 1 - M.minKeycode)).find?
        (fun k => hasKeysym M k target) with
    | none => rw [hf] at h; cases h
    | some x =>
      rw [hf] at h
      obtain rfl : x = kc := by injection h
      obtain ⟨h1, h2, h3, h4⟩ := find?_range'_spec _ _ _ hf
      refine ⟨h1, h2, by omega, h4, by omega, ?_⟩
      intro kc2 h2'
      unfold keysymToKeycode at h2'
      rw [hf] at h2'
      injection h2' with h2''
      exact h2''.symm
  · intro k hk1 hk2 hk3
    obtain ⟨x, hx⟩ := find?_range'_exists (p := fun k => hasKeysym M k target)
      (n := M.maxKeycode + 1 - M.minKeycode) hk1 (by omega) hk3
    exact ⟨x, by unfold keysymToKeycode; rw [hx]⟩

/-- Witness for C5 on scanMapping: resolving keysym 116 succeeds, lands on
keycode 9 (carrying it), every earlier keycode lacks it, and it is
nonzero. -/
theorem keysymToKeycode_least_witness :
    keysymToKeycode scanMapping 116 = .ok 9 ∧
    hasKeysym scanMapping 9 116 = true ∧
    (∀ k, 8 ≤ k → k < 9 → hasKeysym scanMapping k 116 = false) ∧
    (9 : Nat) ≠ 0 := by
  have h := (keysymToKeycode_least scanMapping 116).1 9 rfl
  exact ⟨rfl, h.1, fun k hk1 hk2 => h.2.2.2.1 k hk1 hk2,
    h.2.2.2.2.1 (by decide)⟩

/-- C6: a KeyCombo specification that splits into fewer than two
plus-delimited tokens is rejected as an invalid combo before any event is
emitted. -/
theorem keyCombo_too_few_tokens (M : Mapping) (combo : List Char)
    (h : (splitOnPlus (combo.map Char.toLower)).length < 2) :
    KeyCombo M combo = ([], some (.invalidKeyCombo combo)) := by
  simp only [KeyCombo, if_pos h]

/-- Witness for C6 at the two specifications the spec names: the single
token ctrl and the empty specification. -/
theorem keyCombo_too_few_tokens_witness :
    KeyCombo comboMapping "ctrl".data =
      ([], some (.invalidKeyCombo "ctrl".data)) ∧
    KeyCombo comboMapping [] = ([], some (.invalidKeyCombo [])) :=
  ⟨keyCombo_too_few_tokens comboMapping "ctrl".data (by decide),
   keyCombo_too_few_tokens comboMapping [] (by decide)⟩

/-- C4 (amended): every public X11Controller operation of main.go consults
the liveness flag first and fails with the connection-lost error, emitting
no protocol request, once the flag is cleared (by Close or by the
connection monitor); Close leaves the flag cleared. -/
theorem closed_controller_fails_fast (c : Ctrl) (h : c.connAlive = false) :
    ctrlGetScreenInfo c = .error .connectionLost ∧
    (∀ x y, ctrlMoveMouse c x y = ([], some .connectionLost)) ∧
    (∀ b, ctrlClick c b = ([], some .connectionLost)) ∧
    (∀ x y b, ctrlClickAt c x y b = ([], some .connectionLost)) ∧
    (∀ L text, ctrlTypeText c L text = some ([], some .connectionLost)) ∧
    (∀ depth data, ctrlCaptureScreen c depth data = ([], .error .connectionLost)) ∧
    (∀ depth data,
      ctrlGetScreenshotData c depth data = ([], .error .connectionLost)) ∧
    (∀ lookPath prog args,
      ctrlStartProgram c lookPath prog args = ([], some .connectionLost)) ∧
    (ctrlClose c).connAlive = false := by
  have hc : checkConnection c = some .connectionLost := by
    simp [checkConnection, h]
  refine ⟨?_, ?_, ?_, ?_, ?_, ?_, ?_, ?_, rfl⟩ <;>
    intros <;>
    simp [ctrlGetScreenInfo, ctrlMoveMouse, ctrlClick, ctrlClickAt,
      ctrlTypeText, ctrlCaptureScreen, ctrlGetScreenshotData,
      ctrlStartProgram, hc]

/-- Witness for C4 on a freshly closed controller. -/
theorem closed_controller_fails_fast_witness :
    ctrlMoveMouse (ctrlClose ⟨true, 4, 3⟩) 5 7 = ([], some .connectionLost) ∧
    ctrlGetScreenInfo (ctrlClose ⟨true, 4, 3⟩) = .error .connectionLost :=
  ⟨(closed_controller_fails_fast (ctrlClose ⟨true, 4, 3⟩) rfl).2.1 5 7,
   (closed_controller_fails_fast (ctrlClose ⟨true, 4, 3⟩) rfl).1⟩

/-- Counterexample for C4 as stated: the package-level Client keeps no
liveness flag and its operations consult nothing before emitting; after
Close, MouseMove and MouseClick still emit their unchecked XTEST requests
on the stale handle and report success instead of a session-closed
failure. -/
theorem x11Client_no_close_guard :
    x11MouseMove (x11Close ⟨false⟩) 5 7 = ([Ev.motion 5 7], none) ∧
    x11MouseClick (x11Close ⟨false⟩) 1 =
      ([Ev.buttonPress 1, Ev.buttonRelease 1], none) :=
  ⟨rfl, rfl⟩

/-- C9: when the search-path lookup fails, StartProgram (main.go, live
session) and StartAppWithEnv (package x11) both return the not-found
error, and the emitted event list is empty: no child is spawned and no
pid is produced. -/
theorem startProgram_not_found (c : Ctrl)
    (lookPath : List Char → Option (List Char)) (prog : List Char)
    (halive : c.connAlive = true) (hmiss : lookPath prog = none) :
    (∀ args, ctrlStartProgram c lookPath prog args =
      ([], some (.programNotFound prog))) ∧
    (∀ envBase display pid args env,
      StartAppWithEnv lookPath envBase display pid prog args env =
        ([], .error (.appNotFound prog))) := by
  constructor
  · intro args
    simp [ctrlStartProgram, checkConnection, halive, hmiss]
  · intro envBase display pid args env
    simp [StartAppWithEnv, hmiss]

/-- Witness for C9 with an empty search path. -/
theorem startProgram_not_found_witness :
    ctrlStartProgram ⟨true, 4, 3⟩ (fun _ => none) "nonexistent".data [] =
      ([], some (.programNotFound "nonexistent".data)) ∧
    StartAppWithEnv (fun _ => none) [] ":99".data 7 "nonexistent".data [] [] =
      ([], .error (.appNotFound "nonexistent".data)) :=
  ⟨(startProgram_not_found ⟨true, 4, 3⟩ (fun _ => none) "nonexistent".data
      rfl rfl).1 [],
   (startProgram_not_found ⟨true, 4, 3⟩ (fun _ => none) "nonexistent".data
      rfl rfl).2 [] ":99".data 7 [] []⟩

/-- C8: captureScreen's conversion rejects depths other than 24 and 32
before converting anything; for accepted depths it picks the 4-byte BGRA
layout when the buffer reaches the expected size, reading alpha from the
buffer, and the 3-byte BGR fallback otherwise, forcing alpha to 255. -/
theorem captureConvert_two_layouts (w h depth : Nat) (data : List Nat) :
    (depth ≠ 24 → depth ≠ 32 →
      captureConvert w h depth data = .error (.unsupportedDepth depth)) ∧
    ((depth = 24 ∨ depth = 32) → w * h * 4 ≤ data.length →
      captureConvert w h depth data = .ok (pixelGrid w h 4 data) ∧
      ∀ x y, x < w → y < h →
        pixelAt w 4 data x y =
          (data.getD ((y * w + x) * 4 + 2) 0, data.getD ((y * w + x) * 4 + 1) 0,
            data.getD ((y * w + x) * 4) 0, data.getD ((y * w + x) * 4 + 3) 0)) ∧
    ((depth = 24 ∨ depth = 32) → data.length < w * h * 4 →
      captureConvert w h depth data = .ok (pixelGrid w h 3 data) ∧
      ∀ x y, x < w → y < h →
        pixelAt w 3 data x y =
          if (y * w + x) * 3 + 2 < data.length then
            (data.getD ((y * w + x) * 3 + 2) 0, data.getD ((y * w + x) * 3 + 1) 0,
              data.getD ((y * w + x) * 3) 0, 255)
          else (0, 0, 0, 0)) := by
  refine ⟨?_, ?_, ?_⟩
  · intro h24 h32
    simp [captureConvert, h24, h32]
  · intro hd hlen
    have hnot : ¬ data.length < w * h * 4 := by omega
    refine ⟨by simp only [captureConvert, if_pos hd, if_neg hnot], ?_⟩
    intro x y hx hy
    have hcell : y * w + x < h * w := by
      calc y * w + x < y * w + w := by omega
      _ = (y + 1) * w := by ring
      _ ≤ h * w := Nat.mul_le_mul_right w (by omega)
    have hwh : h * w * 4 = w * h * 4 := by ring
    have h2 : (y * w + x) * 4 + 2 < data.length := by omega
    have h3 : (y * w + x) * 4 + 3 < data.length := by omega
    simp [pixelAt, h2, h3]
  · intro hd hlen
    refine ⟨by simp only [captureConvert, if_pos hd, if_pos hlen], ?_⟩
    intro x y hx hy
    by_cases hc : (y * w + x) * 3 + 2 < data.length <;>
      simp [pixelAt, hc]

/-- Witness for C8: one 4-byte pixel read as BGRA, one 3-byte pixel read
as BGR with alpha forced opaque, and a rejected 16-bit depth. -/
theorem captureConvert_two_layouts_witness :
    captureConvert 1 1 32 [1, 2, 3, 4] = .ok [(3, 2, 1, 4)] ∧
    captureConvert 1 1 24 [1, 2, 3] = .ok [(3, 2, 1, 255)] ∧
    captureConvert 1 1 16 [1, 2, 3, 4] = .error (.unsupportedDepth 16) := by
  refine ⟨?_, ?_, ?_⟩
  · rw [((captureConvert_two_layouts 1 1 32 [1, 2, 3, 4]).2.1
      (Or.inr rfl) (by decide)).1]
    rfl
  · rw [((captureConvert_two_layouts 1 1 24 [1, 2, 3]).2.2
      (Or.inl rfl) (by decide)).1]
    rfl
  · exact (captureConvert_two_layouts 1 1 16 [1, 2, 3, 4]).1
      (by decide) (by decide)

/-- C2: a KeyCombo call that succeeds emitted exactly the modifier presses
in specification order, then the target key press and release, then the
modifier releases in the exact reverse order of the presses. -/
theorem keyCombo_nested_bracketing (M : Mapping) (combo : List Char)
    (evs : List Ev) (h : KeyCombo M combo = (evs, none)) :
    ∃ syms kcs mkc,
      classifyMods ((splitOnPlus (combo.map Char.toLower)).dropLast) = .ok syms ∧
      List.Forall₂ (fun s kc => keysymToKeycode M s = .ok kc) syms kcs ∧
      syms ≠ [] ∧
      evs = kcs.map Ev.keyPress ++ [Ev.keyPress mkc, Ev.keyRelease mkc] ++
        (kcs.reverse).map Ev.keyRelease := by
  unfold KeyCombo at h
  by_cases hlen : (splitOnPlus (combo.map Char.toLower)).length < 2
  · rw [if_pos hlen] at h
    simp at h
  · rw [if_neg hlen] at h
    unfold keyComboParsed at h
    cases hcm : classifyMods (splitOnPlus (combo.map Char.toLower)).dropLast with
    | error e => rw [hcm] at h; simp at h
    | ok syms =>
      rw [hcm] at h
      simp only at h
      cases hpr : (pressModifiers M syms).2 with
      | error e => simp only [hpr] at h; simp at h
      | ok kcs0 =>
        simp only [hpr] at h
        cases hmk : mainKeysymOf
            ((splitOnPlus (combo.map Char.toLower)).getLastD []) with
        | error e => simp only [hmk] at h; simp at h
        | ok msym =>
          simp only [hmk] at h
          cases hkc : keysymToKeycode M msym with
          | error e => simp only [hkc] at h; simp at h
          | ok mkc =>
            simp only [hkc] at h
            obtain ⟨h1, -⟩ := Prod.mk.injEq .. |>.mp h
            obtain ⟨hpe, hfa⟩ := pressModifiers_ok M syms kcs0 hpr
            have hrel : releaseMods M syms.reverse =
                (kcs0.reverse).map Ev.keyRelease :=
              releaseMods_eq M _ _ (List.forall₂_reverse_iff.mpr hfa)
            have hsl := classifyMods_length _ _ hcm
            have hsne : syms ≠ [] := by
              have := List.length_dropLast (splitOnPlus (combo.map Char.toLower))
              intro hemp
              rw [hemp] at hsl
              simp at hsl
              omega
            exact ⟨syms, kcs0, mkc, rfl, hfa, hsne,
              by rw [← h1, hpe, hrel]⟩

/-- Witness for C2 at the spec's example ctrl+shift+t on comboMapping:
presses of keycodes 8 (ctrl) and 9 (shift), then press/release of 10 (t),
then releases of 9 and 8. -/
theorem keyCombo_nested_bracketing_witness :
    ∃ syms kcs mkc,
      classifyMods ((splitOnPlus (("ctrl+shift+t".data).map Char.toLower)).dropLast) =
        .ok syms ∧
      List.Forall₂ (fun s kc => keysymToKeycode comboMapping s = .ok kc) syms kcs ∧
      syms ≠ [] ∧
      ([Ev.keyPress 8, Ev.keyPress 9, Ev.keyPress 10, Ev.keyRelease 10,
          Ev.keyRelease 9, Ev.keyRelease 8] : List Ev) =
        kcs.map Ev.keyPress ++ [Ev.keyPress mkc, Ev.keyRelease mkc] ++
          (kcs.reverse).map Ev.keyRelease :=
  keyCombo_nested_bracketing comboMapping "ctrl+shift+t".data
    [Ev.keyPress 8, Ev.keyPress 9, Ev.keyPress 10, Ev.keyRelease 10,
      Ev.keyRelease 9, Ev.keyRelease 8] rfl

/-- Every entry of the special-key name table except the lowercase tab and
delete rows contains an uppercase letter, so a lowercase multi-character
token other than those two is rejected as an unknown key name. -/
theorem keyNameToKeysym_lowercase_multichar (t : List Char)
    (hlow : t.map Char.toLower = t)
    (htab : t ≠ "tab".data) (hdel : t ≠ "delete".data) :
    keyNameToKeysym t = .error (.unknownKeyName t) := by
  have hne : ∀ lit : List Char, lit.map Char.toLower ≠ lit → t ≠ lit := by
    intro lit hlit he
    subst he
    exact hlit hlow
  simp [keyNameToKeysym,
    hne "Return".data (by decide), hne "Enter".data (by decide),
    hne "Tab".data (by decide), hne "Escape".data (by decide),
    hne "Esc".data (by decide), hne "BackSpace".data (by decide),
    hne "Backspace".data (by decide), hne "Delete".data (by decide),
    hne "Del".data (by decide), hne "Home".data (by decide),
    hne "End".data (by decide), hne "Page_Up".data (by decide),
    hne "PageUp".data (by decide), hne "PgUp".data (by decide),
    hne "Page_Down".data (by decide), hne "PageDown".data (by decide),
    hne "PgDn".data (by decide), hne "Left".data (by decide),
    hne "Right".data (by decide), hne "Up".data (by decide),
    hne "Down".data (by decide), htab, hdel]

/-- C10: KeyCombo lowercases the whole specification before parsing, so
two specifications equal up to case behave identically on success; and
because the name table's only lowercase multi-character entries are tab
and delete, a ctrl combo whose final token is any other multi-character
(lowercase, plus-free) name fails with an unknown-key-name error after
the ctrl press event has already been emitted. -/
theorem keyCombo_lowercases_spec :
    (∀ (M : Mapping) (c1 c2 : List Char) (evs : List Ev),
      c1.map Char.toLower = c2.map Char.toLower →
      KeyCombo M c1 = (evs, none) → KeyCombo M c2 = (evs, none)) ∧
    (∀ (M : Mapping) (t : List Char) (kc : Nat),
      2 ≤ t.length → t.map Char.toLower = t → (∀ d ∈ t, d.toNat ≠ 43) →
      t ≠ "tab".data → t ≠ "delete".data →
      keysymToKeycode M 0xffe3 = .ok kc →
      KeyCombo M ("ctrl+".data ++ t) =
        ([Ev.keyPress kc], some (.unknownKeyName t))) := by
  constructor
  · intro M c1 c2 evs hmap h
    unfold KeyCombo at h ⊢
    rw [← hmap]
    by_cases hlen : (splitOnPlus (c1.map Char.toLower)).length < 2
    · rw [if_pos hlen] at h; simp at h
    · rw [if_neg hlen] at h ⊢; exact h
  · intro M t kc hlen hlow hplus htab hdel hctrl
    have hc5 : "ctrl+".data = "ctrl".data ++ [Char.ofNat 43] := by decide
    have hlower : (("ctrl+".data ++ t).map Char.toLower) = "ctrl+".data ++ t := by
      rw [List.map_append, hlow]
      congr 1
    unfold KeyCombo
    rw [hlower, hc5, List.append_assoc, List.singleton_append]
    rw [splitOnPlus_append (by decide) "ctrl".data t (by decide),
      splitOnPlus_no_plus t hplus]
    rw [if_neg (by simp)]
    have hname : keyNameToKeysym t = .error (.unknownKeyName t) :=
      keyNameToKeysym_lowercase_multichar t hlow htab hdel
    have hmain : mainKeysymOf t = .error (.unknownKeyName t) := by
      unfold mainKeysymOf
      rw [if_neg (by omega), hname]
    simp [keyComboParsed, classifyMods, modKeysym, pressModifiers, hctrl,
      hmain, Except.map]

/-- Witness for C10 part two at ctrl+Return on comboMapping: lowercasing
turns the token into return, which the table does not know, and the ctrl
press (keycode 8) has already been emitted. -/
theorem keyCombo_lowercases_spec_witness :
    KeyCombo comboMapping ("ctrl+".data ++ "return".data) =
      ([Ev.keyPress 8], some (.unknownKeyName "return".data)) :=
  keyCombo_lowercases_spec.2 comboMapping "return".data 8
    (by decide) (by decide) (by decide) (by decide) (by decide) rfl

/-- The 21 characters the spec's shift-row symbol set names (code points
of the characters between exclamation mark and tilde in the set). -/
def shiftSymChars : List Nat :=
  [33, 64, 35, 36, 37, 94, 38, 42, 40, 41, 95, 43, 123, 125, 124, 58, 34,
    60, 62, 63, 126]

/-- The ten shift-row symbols the package-level typeChar actually special
cases (the digit-row symbols only). -/
def x11ShiftSyms : List Nat :=
  [33, 64, 35, 36, 37, 94, 38, 42, 40, 41]

/-- The unshifted base symbol of a shifted character on the standard US
layout as the spec words it: uppercase letters base on their lowercase
form and each shift-row symbol on the unshifted symbol of its key. -/
def specUnshiftedBase (ch : Nat) : Nat :=
  if 65 ≤ ch ∧ ch ≤ 90 then ch + 32
  else if ch = 33 then 49
  else if ch = 64 then 50
  else if ch = 35 then 51
  else if ch = 36 then 52
  else if ch = 37 then 53
  else if ch = 94 then 54
  else if ch = 38 then 55
  else if ch = 42 then 56
  else if ch = 40 then 57
  else if ch = 41 then 48
  else if ch = 95 then 45
  else if ch = 43 then 61
  else if ch = 123 then 91
  else if ch = 125 then 93
  else if ch = 124 then 92
  else if ch = 58 then 59
  else if ch = 34 then 39
  else if ch = 60 then 44
  else if ch = 62 then 46
  else if ch = 63 then 47
  else if ch = 126 then 96
  else ch

/-- typeChar (main.go) emits the bracketed sequence once the resolved
keysym has a keycode. -/
theorem mainTypeChar_events (L : GoLayout) (ch ks kc : Nat) (kcs : List Nat)
    (sh : Bool) (hres : mainResolveChar ch = (ks, sh))
    (hget : L.getKeycodes ks = kc :: kcs) :
    mainTypeChar L ch =
      (if sh then [Ev.keyPress (mainShiftKc L)] else []) ++
        [Ev.keyPress kc, Ev.keyRelease kc] ++
        (if sh then [Ev.keyRelease (mainShiftKc L)] else []) := by
  simp [mainTypeChar, hres, hget]

/-- typeChar (package x11) emits the bracketed sequence once the resolved
keysym has a keycode. -/
theorem x11TypeChar_events (M : Mapping) (ch ks kc : Nat) (sh : Bool)
    (hres : x11ResolveChar ch = (ks, sh))
    (hget : keysymToKeycode M ks = .ok kc) :
    x11TypeChar M ch =
      ((if sh then [Ev.keyPress (x11ShiftKc M)] else []) ++
        [Ev.keyPress kc, Ev.keyRelease kc] ++
        (if sh then [Ev.keyRelease (x11ShiftKc M)] else []), none) := by
  simp [x11TypeChar, hres, hget]

/-- C1 (amended): main.go's typeChar resolves every uppercase letter and
every one of the 21 shift-row symbols to its unshifted base symbol with
the shift flag set, and emits the strictly nested
Shift-press/key-press/key-release/Shift-release sequence once the base
symbol has a keycode; lowercase letters and digits resolve to themselves
unshifted and get a bare press/release. The package-level typeChar does
the same for uppercase letters and for the ten digit-row symbols only:
the remaining eleven symbols resolve to themselves with no shift flag, so
they are emitted without any Shift bracketing. -/
theorem typeChar_shift_bracketing :
    (∀ ch, ch ∈ shiftSymChars ∨ (65 ≤ ch ∧ ch ≤ 90) →
      mainResolveChar ch = (specUnshiftedBase ch, true)) ∧
    (∀ ch, (48 ≤ ch ∧ ch ≤ 57) ∨ (97 ≤ ch ∧ ch ≤ 122) →
      mainResolveChar ch = (ch, false)) ∧
    (∀ (L : GoLayout) ch kc kcs,
      mainResolveChar ch = (specUnshiftedBase ch, true) →
      L.getKeycodes (specUnshiftedBase ch) = kc :: kcs →
      mainTypeChar L ch =
        [Ev.keyPress (mainShiftKc L), Ev.keyPress kc, Ev.keyRelease kc,
          Ev.keyRelease (mainShiftKc L)]) ∧
    (∀ (L : GoLayout) ch kc kcs, mainResolveChar ch = (ch, false) →
      L.getKeycodes ch = kc :: kcs →
      mainTypeChar L ch = [Ev.keyPress kc, Ev.keyRelease kc]) ∧
    (∀ ch, ch ∈ x11ShiftSyms ∨ (65 ≤ ch ∧ ch ≤ 90) →
      x11ResolveChar ch = (specUnshiftedBase ch, true)) ∧
    (∀ ch, (48 ≤ ch ∧ ch ≤ 57) ∨ (97 ≤ ch ∧ ch ≤ 122) →
      x11ResolveChar ch = (ch, false)) ∧
    (∀ ch, ch ∈ shiftSymChars → ch ∉ x11ShiftSyms →
      x11ResolveChar ch = (ch, false)) ∧
    (∀ (M : Mapping) ch ks kc sh, x11ResolveChar ch = (ks, sh) →
      keysymToKeycode M ks = .ok kc →
      x11TypeChar M ch =
        ((if sh then [Ev.keyPress (x11ShiftKc M)] else []) ++
          [Ev.keyPress kc, Ev.keyRelease kc] ++
          (if sh then [Ev.keyRelease (x11ShiftKc M)] else []), none)) := by
  refine ⟨?_, ?_, ?_, ?_, ?_, ?_, ?_, ?_⟩
  · rintro ch (hm | ⟨h1, h2⟩)
    · fin_cases hm <;> decide
    · interval_cases ch <;> decide
  · rintro ch (⟨h1, h2⟩ | ⟨h1, h2⟩) <;> interval_cases ch <;> decide
  · intro L ch kc kcs hres hget
    rw [mainTypeChar_events L ch (specUnshiftedBase ch) kc kcs true hres hget]
    simp
  · intro L ch kc kcs hres hget
    rw [mainTypeChar_events L ch ch kc kcs false hres hget]
    simp
  · rintro ch (hm | ⟨h1, h2⟩)
    · fin_cases hm <;> decide
    · interval_cases ch <;> decide
  · rintro ch (⟨h1, h2⟩ | ⟨h1, h2⟩) <;> interval_cases ch <;> decide
  · intro ch hm hnot
    fin_cases hm <;> first | decide | exact absurd (by decide) hnot
  · intro M ch ks kc sh hres hget
    exact x11TypeChar_events M ch ks kc sh hres hget

/-- A fixed layout for concrete evaluations of main.go's typeChar: keysym
97 (letter a) on keycode 38 and XK_Shift_L on keycode 50. -/
def asciiLayout : GoLayout :=
  ⟨fun ks => if ks = 97 then [38] else if ks = 0xffe1 then [50] else [],
    fun _ => []⟩

/-- Witness for C1: typing the uppercase letter A on asciiLayout emits
Shift press, key press/release of the base keycode, Shift release. -/
theorem typeChar_shift_bracketing_witness :
    mainTypeChar asciiLayout 65 =
      [Ev.keyPress 50, Ev.keyPress 38, Ev.keyRelease 38, Ev.keyRelease 50] :=
  typeChar_shift_bracketing.2.2.1 asciiLayout 65 38 [] (by decide) (by decide)

/-- Counterexample mapping for C1: keycode 8 carries minus (45) unshifted
and underscore (95) shifted, keycode 9 carries XK_Shift_L. -/
def underscoreMapping : Mapping :=
  ⟨8, 9, 2, [45, 95, 0xffe1, 0xffe1]⟩

/-- Counterexample for C1 as stated: the package-level typeChar treats
underscore (a claimed shift-row symbol) as unshifted: it resolves keysym
95 directly instead of the base minus and emits a bare press/release with
no Shift bracketing. -/
theorem x11TypeChar_underscore_unshifted :
    x11ResolveChar 95 = (95, false) ∧
    x11TypeChar underscoreMapping 95 =
      ([Ev.keyPress 8, Ev.keyRelease 8], none) :=
  ⟨rfl, rfl⟩

/-- On plus-free text the TypeText loop of main.go never enters the
inline-modifier branch: it types byte i and advances, so with enough fuel
it terminates successfully with the concatenated per-character streams. -/
theorem typeTextLoop_no_plus (L : GoLayout) (text : List Nat)
    (hplus : ∀ b ∈ text, b ≠ 43) :
    ∀ fuel i, text.length - i < fuel →
      typeTextLoop L text fuel i =
        some ((text.drop i).flatMap fun ch => mainTypeChar L ch, none) := by
  intro fuel
  induction fuel with
  | zero => intro i h; omega
  | succ fuel ih =>
    intro i h
    by_cases hi : i < text.length
    · have hcond : ¬(i + 2 < text.length ∧ text.getD (i + 1) 0 = 43) := by
        rintro ⟨h2, h43⟩
        have hmem : text.getD (i + 1) 0 ∈ text := by
          rw [List.getD_eq_getElem text 0 (by omega)]
          exact List.getElem_mem ..
        exact hplus _ hmem h43
      have hdrop : text.drop i = text.getD i 0 :: text.drop (i + 1) := by
        rw [List.getD_eq_getElem text 0 hi]
        exact (List.getElem_cons_drop text i hi).symm
      simp only [typeTextLoop, if_pos hi, if_neg hcond, ih (i + 1) (by omega)]
      rw [hdrop, List.flatMap_cons]
    · have hge : text.length ≤ i := by omega
      simp only [typeTextLoop, if_neg hi]
      rw [List.drop_eq_nil_of_le hge]
      simp

/-- C3 (amended): in main.go, a character whose resolution fails in both
lookups contributes no events and no error, and on plus-free text the
typing loop visits every byte, so TypeText succeeds with the
concatenation of the per-character streams — the unmappable characters
are skipped and the rest still typed. The package-level Type instead
aborts: the first typeChar failure is returned as the call's error and
the remaining characters are never typed. -/
theorem typeText_best_effort :
    (∀ (L : GoLayout) (text : List Nat), (∀ b ∈ text, b ≠ 43) →
      mainTypeText L text =
        some (text.flatMap fun ch => mainTypeChar L ch, none)) ∧
    (∀ (L : GoLayout) (ch : Nat),
      L.getKeycodes (mainResolveChar ch).1 = [] → L.stringToKeycodes ch = [] →
      mainTypeChar L ch = []) ∧
    (∀ (M : Mapping) (ch : Nat) (rest : List Nat) (evs : List Ev) (e : X11Err),
      ch ≠ 10 → x11TypeChar M ch = (evs, some e) →
      x11Type M (ch :: rest) = (evs, some e)) := by
  refine ⟨?_, ?_, ?_⟩
  · intro L text hplus
    have h := typeTextLoop_no_plus L text hplus (text.length + 1) 0 (by omega)
    simpa [mainTypeText] using h
  · intro L ch h1 h2
    simp [mainTypeChar, h1, h2]
  · intro M ch rest evs e hch hx
    simp [x11Type, hch, hx]

/-- A layout for concrete evaluations that maps only the letter b (to
keycode 56), leaving every other keysym unmapped. -/
def skipLayout : GoLayout :=
  ⟨fun ks => if ks = 98 then [56] else [], fun _ => []⟩

/-- Witness for C3: typing an unmappable byte followed by the letter b on
skipLayout skips the former and still types the latter, with overall
success. -/
theorem typeText_best_effort_witness :
    mainTypeText skipLayout [199, 98] =
      some ([Ev.keyPress 56, Ev.keyRelease 56], none) :=
  (typeText_best_effort.1 skipLayout [199, 98] (by decide)).trans (by decide)

/-- A mapping that knows only the letter a (keycode 8). -/
def skipMapping : Mapping :=
  ⟨8, 8, 1, [97]⟩

/-- Counterexample for C3 as stated: the package-level Type of the text qa
on skipMapping fails with the q resolution error and types nothing, even
though a alone is typable — the failure aborts the call instead of
skipping the character. -/
theorem x11Type_aborts_on_unmappable :
    x11Type skipMapping [113, 97] = ([], some (.noKeycodeForKeysym 113)) ∧
    x11Type skipMapping [97] = ([Ev.keyPress 8, Ev.keyRelease 8], none) :=
  ⟨rfl, rfl⟩

/-- C7 (amended): with no display supplied, provisioning enabled and the
display-server binary present, the first x11.go variant scans candidates
99..199 in increasing order, skips every candidate whose lock file or
socket exists, provisions the first fully free one, and fails with the
no-free-display provisioning error when the range is exhausted. -/
theorem acquireDisplay_scan (fs : DisplayFS) :
    (∀ n, acquireDisplay [] [] true true fs = .ok (.provisioned n) →
      99 ≤ n ∧ n ≤ 199 ∧ fs.lockExists n = false ∧ fs.sockExists n = false ∧
      ∀ m, 99 ≤ m → m < n →
        fs.lockExists m = true ∨ fs.sockExists m = true) ∧
    ((∀ m, 99 ≤ m → m ≤ 199 →
        fs.lockExists m = true ∨ fs.sockExists m = true) →
      acquireDisplay [] [] true true fs = .error .noFreeDisplay) ∧
    (∀ m, 99 ≤ m → m ≤ 199 → fs.lockExists m = false →
      fs.sockExists m = false →
      ∃ n, acquireDisplay [] [] true true fs = .ok (.provisioned n)) := by
  have hq : ∀ m, (!fs.lockExists m && !fs.sockExists m) = true ↔
      (fs.lockExists m = false ∧ fs.sockExists m = false) := by
    intro m
    cases fs.lockExists m <;> cases fs.sockExists m <;> simp
  have hp : ∀ m, (!fs.lockExists m && !fs.sockExists m) = false ↔
      (fs.lockExists m = true ∨ fs.sockExists m = true) := by
    intro m
    cases fs.lockExists m <;> cases fs.sockExists m <;> simp
  have hacq : acquireDisplay [] [] true true fs =
      (match findAvailableDisplay fs with
        | none => .error .noFreeDisplay
        | some i => .ok (.provisioned i)) := rfl
  refine ⟨?_, ?_, ?_⟩
  · intro n h
    rw [hacq] at h
    cases hf : findAvailableDisplay fs with
    | none => rw [hf] at h; cases h
    | some i =>
      rw [hf] at h
      obtain rfl : i = n := by
        injection h with h'
        injection h'
      obtain ⟨h1, h2, h3, h4⟩ := find?_range'_spec _ _ _ hf
      obtain ⟨hl, hs⟩ := (hq _).mp h1
      exact ⟨h2, by omega, hl, hs, fun m hm1 hm2 => (hp m).mp (h4 m hm1 hm2)⟩
  · intro hall
    rw [hacq]
    cases hf : findAvailableDisplay fs with
    | none => rfl
    | some i =>
      obtain ⟨h1, h2, h3, -⟩ := find?_range'_spec _ _ _ hf
      obtain ⟨hl, hs⟩ := (hq i).mp h1
      rcases hall i h2 (by omega) with hcon | hcon
      · rw [hl] at hcon; cases hcon
      · rw [hs] at hcon; cases hcon
  · intro m h1 h2 h3 h4
    obtain ⟨x, hx⟩ := find?_range'_exists
      (p := fun i => !fs.lockExists i && !fs.sockExists i) (n := 101)
      h1 (by omega) ((hq m).mpr ⟨h3, h4⟩)
    exact ⟨x, by rw [hacq]; unfold findAvailableDisplay; rw [hx]⟩

/-- A filesystem with a lock file for display 99 and a stale socket for
display 100; 101 is the first fully free candidate. -/
def scanFS : DisplayFS :=
  ⟨fun i => i == 99, fun i => i == 100⟩

/-- Witness for C7 on scanFS: the scan lands on 101 and every earlier
candidate was occupied by a lock file or a socket. -/
theorem acquireDisplay_scan_witness :
    scanFS.lockExists 101 = false ∧ scanFS.sockExists 101 = false ∧
    ∀ m, 99 ≤ m → m < 101 →
      scanFS.lockExists m = true ∨ scanFS.sockExists m = true := by
  have h := (acquireDisplay_scan scanFS).1 101 rfl
  exact ⟨h.2.2.1, h.2.2.2.1, h.2.2.2.2⟩

/-- A filesystem with a stale socket for display 99 and no lock files. -/
def staleSockFS : DisplayFS :=
  ⟨fun _ => false, fun i => i == 99⟩

/-- Counterexample for C7 as stated: the second ConnectWithOptions variant
consults only the lock file and a probe launch, not the socket; with a
stale socket for display 99 and no lock file it provisions 99 anyway
instead of skipping it. -/
theorem acquireDisplayProbe_ignores_socket :
    staleSockFS.sockExists 99 = true ∧
    acquireDisplayProbe [] [] true true staleSockFS (fun _ => true) =
      .ok (.provisioned 99) :=
  ⟨rfl, rfl⟩
